import Mathlib

/-!
Verification development for the pymuon-suite quantum vibrational averaging
code.  The embedded functions follow, line by line, the Python sources

  - pymuonsuite/quantum/vibrational/average.py
  - pymuonsuite/quantum/__main__.py
  - pymuonsuite/data/dftb_pars/dftb_pars.py

Python floats are modelled by rationals, numpy arrays by lists, exceptions by
Except/Option, and printing by an explicit list of emitted lines.  The
displacement-scheme classes (IndependentDisplacements,
MonteCarloDisplacements, from pymuonsuite/quantum/vibrational/schemes.py) are
not part of the supplied sources; where the theorems need them they are
modelled from the spec, and each such definition says so in its doc string.
-/

namespace PyMuonSuite

/-! ## Definitions -/

/-- `muon_vibrational_average_read` (average.py, lines 268-274) computes

    to_avg = np.array(to_avg)
    displsch.recalc_weights(T=average_T)
    N = len(displaced_coll)
    weights = displsch.weights[slice(N), None, ...]
    avg = np.sum(weights * to_avg, axis=0)

i.e. the weight vector is sliced to the first `N` entries (`N` = number of
configurations that produced a value) and the average is the elementwise
weighted sum.  Values may be scalars (charge) or fixed-shape tensors
(hyperfine); we model them as elements of an arbitrary `ℚ`-module.  numpy
broadcasting semantics of `weights * to_avg`: a sliced weight vector of
length `N` multiplies elementwise; a sliced weight vector of length 1
broadcasts its single weight across all `N` values; any other length
raises a broadcast error, modelled by `none`. -/
def readAverage {M : Type} [AddCommMonoid M] [Module ℚ M]
    (weights : List ℚ) (vals : List M) : Option M :=
  if (weights.take vals.length).length = vals.length then
    some ((((weights.take vals.length).zip vals).map (fun p => p.1 • p.2)).sum)
  else if (weights.take vals.length).length = 1 then
    some ((vals.map (fun v => ((weights.take vals.length).getD 0 0) • v)).sum)
  else
    none

/-- The spec's formula for the reduction, written from its words: "compute
`Σ weight_i * value_i`" over the `N` configurations (AverageReducer contract,
spec §4.5).  Stated independently of `readAverage` so the two can be
compared. -/
def weightedSumSpec {M : Type} [AddCommMonoid M] [Module ℚ M]
    (weights : List ℚ) (vals : List M) : M :=
  ∑ i in Finset.range vals.length, (weights.getD i 0) • (vals.getD i 0)

/-- Tolerance of the gamma-point test: `np.isclose(q, [0, 0, 0])` compares
each component `c` against `atol + rtol * 0 = atol = 1e-8`. -/
def qtol : ℚ := 1 / 10 ^ 8

/-- One qpoint passes the zero-wavevector test of
`read_castep_gamma_phonons` (average.py line 70):
`np.isclose(q, [0, 0, 0]).all()`. -/
def isGamma (q : ℚ × ℚ × ℚ) : Bool :=
  |q.1| ≤ qtol ∧ |q.2.1| ≤ qtol ∧ |q.2.2| ≤ qtol

/-- The `for i, q in enumerate(pd.qpts): if isclose: gamma_i = i; break` loop
of average.py lines 68-72: index of the first zero-wavevector entry. -/
def findGammaIdx : List (ℚ × ℚ × ℚ) → ℕ → Option ℕ
  | [], _ => none
  | q :: rest, i => if isGamma q then some i else findGammaIdx rest (i + 1)

/-- The failure of `read_castep_gamma_phonons`: the code raises
`MuonAverageError("Could not find gamma point phonons in CASTEP phonon
file")`, the spec's `MissingGammaPointError`. -/
inductive PhononReadError
  | missingGammaPoint
deriving DecidableEq

/-- Embeds `read_castep_gamma_phonons` (average.py lines 41-78) after the
file parse: given the parsed qpoints, per-qpoint eigenvalues and per-qpoint
eigenvectors (mode × atom × 3), return the eigenvalues and eigenvectors at
the first gamma point, or fail when there is none. -/
def read_castep_gamma_phonons (qpts : List (ℚ × ℚ × ℚ))
    (evals : List (List ℚ)) (evecs : List (List (List (List ℚ)))) :
    Except PhononReadError (List ℚ × List (List (List ℚ))) :=
  match findGammaIdx qpts 0 with
  | none => .error .missingGammaPoint
  | some i => .ok (evals.getD i [], evecs.getD i [])

/-- Muon mass in atomic mass units, `constants.m_mu_amu` (constants.py is
not among the supplied sources; the value is the physical muon mass the
code uses).  The exact value is immaterial to the theorems. -/
def m_mu_amu : ℚ := 1134289259 / 10 ^ 10

/-- The two displacement scheme variants selected by the `method` argument
of `muon_vibrational_average_write` (average.py lines 180-184). -/
inductive DisplMethod
  | independent
  | montecarlo
deriving DecidableEq

/-- Modelled from the spec: the state of a displacement scheme
(schemes.py, which defines IndependentDisplacements and
MonteCarloDisplacements, is not among the supplied sources).  It stores the
constructor data (phonon eigenvalues, eigenvectors, masses, target atom,
sigma span), the grid positions recorded at generation time (reused by the
weight recalculation), and the `displacements` and `weights` fields of the
spec's DisplacementScheme data model (spec §3). -/
structure DisplacementScheme where
  method : DisplMethod
  evals : List ℚ
  evecs : List (List (List ℚ))
  masses : List ℚ
  muIndex : ℕ
  sigmaN : ℚ
  gridPoints : List (ℕ × ℚ)
  displacements : List (List (List ℚ))
  weights : List ℚ
deriving DecidableEq

/-- Truncated Taylor series for the exponential: a computable rational
surrogate for the floating-point `exp` of the Python code. -/
def ratExp (x : ℚ) : ℚ :=
  ∑ k in Finset.range 16, x ^ k / (Nat.factorial k : ℚ)

/-- Hyperbolic cotangent via `ratExp`, for the thermal broadening factor. -/
def ratCoth (y : ℚ) : ℚ :=
  (ratExp y + ratExp (-y)) / (ratExp y - ratExp (-y))

/-- Newton iteration for the square root (fixed iteration count), a
computable rational surrogate for the floating-point `sqrt`. -/
def ratSqrtIter (x : ℚ) : ℕ → ℚ → ℚ
  | 0, t => t
  | n + 1, t => ratSqrtIter x n ((t + x / t) / 2)

/-- Square-root surrogate; non-positive inputs map to 0. -/
def ratSqrt (x : ℚ) : ℚ :=
  if x ≤ 0 then 0 else ratSqrtIter x 8 (max x 1)

/-- Modelled from the spec: thermal variance of a harmonic mode,
`variance ∝ (ħ/(2·mass·ν))·coth(ħν/(2·k_B·T))`, guarding T = 0 by taking
the `coth → 1` limit directly (spec §4.4).  Physical constants are folded
into the frequency/temperature ratio; only the structure of the computation
matters to the theorems below. -/
def thermalVariance (mass nu T : ℚ) : ℚ :=
  if T ≤ 0 then 1 / (2 * mass * nu)
  else (1 / (2 * mass * nu)) * ratCoth (nu / (2 * T))

/-- Modelled from the spec: the near-zero frequency threshold below which a
mode is treated as rigid-body and skipped (spec §4.2 edge cases). -/
def freqThreshold : ℚ := 1 / 1000

/-- Indices of the retained (above-threshold) vibrational modes. -/
def retainedModes (s : DisplacementScheme) : List ℕ :=
  (List.range s.evals.length).filter (fun m => freqThreshold < s.evals.getD m 0)

/-- The eigenvector 3-component at the target atom for mode `m`. -/
def evecAtTarget (s : DisplacementScheme) (m : ℕ) : List ℚ :=
  (s.evecs.getD m []).getD s.muIndex [0, 0, 0]

/-- Modelled from the spec: the mode's characteristic length scale at the
target atom (spec §4.2 step 1); the reduced-mass derivation from the
eigenvector component is folded into the target-atom mass, schemes.py being
absent. -/
def modeSigma (s : DisplacementScheme) (m : ℕ) (T : ℚ) : ℚ :=
  ratSqrt (thermalVariance (s.masses.getD s.muIndex 1) (s.evals.getD m 0) T)

/-- Modelled from the spec: a 1-D grid of `n` equally spaced points spanning
±`halfWidth` (spec §4.2 step 2). -/
def sampleGrid (n : ℕ) (halfWidth : ℚ) : List ℚ :=
  if n ≤ 1 then [0]
  else (List.range n).map
    (fun j => -halfWidth + (2 * halfWidth) * (j : ℚ) / ((n : ℚ) - 1))

/-- Modelled from the spec: the (mode, grid position) pairs generated by the
independent scheme — one configuration per retained mode and grid point
(spec §4.2 step 3). -/
def independentGridPoints (s : DisplacementScheme) (n : ℕ) (T : ℚ) :
    List (ℕ × ℚ) :=
  (retainedModes s).flatMap
    (fun m => (sampleGrid n (s.sigmaN * modeSigma s m T)).map (fun x => (m, x)))

/-- Modelled from the spec: the displacement of one independent-scheme
configuration is zero everywhere except at the target atom, where it is the
mode eigenvector at the target scaled by the grid position (spec §4.2
step 3). -/
def independentDisplacements (s : DisplacementScheme)
    (pts : List (ℕ × ℚ)) : List (List (List ℚ)) :=
  pts.map (fun p =>
    (List.range s.masses.length).map (fun a =>
      if a = s.muIndex then (evecAtTarget s p.1).map (fun c => c * p.2)
      else [0, 0, 0]))

/-- Unnormalised Gaussian density surrogate at a grid position. -/
def gaussDensity (x sigma : ℚ) : ℚ :=
  ratExp (-(x ^ 2) / (2 * sigma ^ 2))

/-- Modelled from the spec: independent-scheme weights are the Gaussian
densities at the stored grid positions with the temperature-T width,
normalised so the weights of each mode's grid sum to 1 (spec §4.2 step 4);
the weight recalculation reuses the stored grid positions. -/
def independentWeights (s : DisplacementScheme) (T : ℚ) : List ℚ :=
  s.gridPoints.map (fun p =>
    gaussDensity p.2 (modeSigma s p.1 T) /
      ((s.gridPoints.filter (fun q => q.1 = p.1)).map
        (fun q => gaussDensity q.2 (modeSigma s q.1 T))).sum)

/-- A linear congruential step: deterministic stand-in for the stochastic
draws of the Monte Carlo scheme. -/
def lcgNext (state : ℕ) : ℕ :=
  (1103515245 * state + 12345) % 2147483648

/-- The k-th pseudo-random state. -/
def lcgAt : ℕ → ℕ
  | 0 => lcgNext 42
  | k + 1 => lcgNext (lcgAt k)

/-- A pseudo-random rational in [-1, 1) from an LCG state. -/
def lcgUnit (state : ℕ) : ℚ :=
  2 * (state : ℚ) / 2147483648 - 1

/-- Modelled from the spec: the drawn amplitude of mode `m` for
configuration `i` — a random number scaled by the mode's thermal width
(spec §4.3 step 1); schemes.py being absent, the draw is the deterministic
LCG surrogate. -/
def mcAmplitude (s : DisplacementScheme) (T : ℚ) (i m : ℕ) : ℚ :=
  lcgUnit (lcgAt (i * s.evals.length + m)) * modeSigma s m T

/-- Modelled from the spec: one Monte Carlo configuration displaces every
atom by the sum over retained modes of the mode eigenvector at that atom
times the drawn amplitude (spec §4.3 step 2). -/
def mcDisplacement (s : DisplacementScheme) (T : ℚ) (i : ℕ) :
    List (List ℚ) :=
  (List.range s.masses.length).map (fun a =>
    (List.range 3).map (fun c =>
      ((retainedModes s).map (fun m =>
        (((s.evecs.getD m []).getD a [0, 0, 0]).getD c 0) *
          mcAmplitude s T i m)).sum))

/-- Modelled from the spec: the Monte Carlo displacement set for `n`
requested configurations. -/
def montecarloDisplacements (s : DisplacementScheme) (n : ℕ) (T : ℚ) :
    List (List (List ℚ)) :=
  (List.range n).map (mcDisplacement s T)

/-- Modelled from the spec: `recalc_displacements(n, T)` (re)populates the
displacement set (and, for the independent scheme, the grid positions that
the later weight recalculation reuses); it leaves `weights` to
`recalc_weights` (spec §3 lifecycle). -/
def recalcDisplacements (s : DisplacementScheme) (n : ℕ) (T : ℚ) :
    DisplacementScheme :=
  match s.method with
  | .independent =>
      let pts := independentGridPoints s n T
      { s with gridPoints := pts,
               displacements := independentDisplacements s pts }
  | .montecarlo =>
      { s with displacements := montecarloDisplacements s n T }

/-- Modelled from the spec: `recalc_weights(T)` (re)populates only
`weights` — the Gaussian densities recomputed at the stored grid positions
with the temperature-T width for the independent scheme (spec §4.2), the
uniform 1/n weights for the Monte Carlo scheme (spec §4.3 step 3) — without
regenerating geometry (spec §3 lifecycle). -/
def recalcWeights (s : DisplacementScheme) (T : ℚ) : DisplacementScheme :=
  { s with weights :=
      match s.method with
      | .independent => independentWeights s T
      | .montecarlo =>
          List.replicate s.displacements.length
            (1 / (s.displacements.length : ℚ)) }

/-- The read path of `muon_vibrational_average_read` (average.py lines
269-274): recalculate the weights at the averaging temperature, then take
the weighted average of the per-configuration values; the scheme state
after the read is returned alongside the average. -/
def readPath {M : Type} [AddCommMonoid M] [Module ℚ M]
    (s : DisplacementScheme) (vals : List M) (T : ℚ) :
    DisplacementScheme × Option M :=
  (recalcWeights s T, readAverage (recalcWeights s T).weights vals)

/-- Errors of the write path: `MuonAverageError("More than one muon found
in the system")` (average.py lines 130-132) and the Python `IndexError`
from an out-of-range `species[mu_index]` assignment. -/
inductive WriteError
  | muonAverage
  | indexError
deriving DecidableEq

/-- Python list indexing: non-negative indices below the length are used as
is, negative indices at least `-n` count from the end, anything else is an
IndexError (`none`). -/
def pyListIndex (n : ℕ) (i : ℤ) : Option ℕ :=
  if 0 ≤ i ∧ i < (n : ℤ) then some i.toNat
  else if -(n : ℤ) ≤ i ∧ i < 0 then some ((n : ℤ) + i).toNat
  else none

/-- `np.where(species == mu_symbol)[0]` (average.py line 129): indices of
the atoms whose species equals the muon symbol. -/
def muIndicesOf (species : List String) (muSymbol : String) : List ℕ :=
  (List.range species.length).filter (fun i => species.getD i "" = muSymbol)

/-- Embeds average.py lines 129-140: more than one atom matching
`mu_symbol` is a `MuonAverageError`; exactly one overrides the passed
`mu_index` with that atom's index; none relabels the atom at `mu_index`
(Python indexing, negative indices allowed) with `mu_symbol`.  Returns the
updated species array and the effective muon index. -/
def speciesRelabel (species : List String) (muSymbol : String)
    (muIndex : ℤ) : Except WriteError (List String × ℕ) :=
  let idxs := muIndicesOf species muSymbol
  if 1 < idxs.length then .error .muonAverage
  else
    match idxs with
    | [i] => .ok (species, i)
    | _ =>
      match pyListIndex species.length muIndex with
      | some j => .ok (species.set j muSymbol, j)
      | none => .error .indexError

/-- Modelled from the spec: the `IndependentDisplacements(ph_evals,
ph_evecs, masses, mu_index, sigma_n)` constructor stores its arguments;
grid, displacements and weights start unpopulated (spec §3). -/
def mkIndependentDisplacements (evals : List ℚ) (evecs : List (List (List ℚ)))
    (masses : List ℚ) (muIndex : ℕ) (sigmaN : ℚ) : DisplacementScheme :=
  { method := .independent, evals := evals, evecs := evecs, masses := masses,
    muIndex := muIndex, sigmaN := sigmaN, gridPoints := [],
    displacements := [], weights := [] }

/-- Modelled from the spec: the `MonteCarloDisplacements(ph_evals, ph_evecs,
masses)` constructor stores its arguments; this variant samples the whole
lattice, so it takes no target index or sigma span (the stored `muIndex`
and `sigmaN` are unused defaults). -/
def mkMonteCarloDisplacements (evals : List ℚ) (evecs : List (List (List ℚ)))
    (masses : List ℚ) : DisplacementScheme :=
  { method := .montecarlo, evals := evals, evecs := evecs, masses := masses,
    muIndex := 0, sigmaN := 3, gridPoints := [],
    displacements := [], weights := [] }

/-- The scheme-constructor dispatch of average.py lines 180-184. -/
def schemeFor (method : DisplMethod) (evals : List ℚ)
    (evecs : List (List (List ℚ))) (masses : List ℚ) (muIndex : ℕ)
    (sigmaN : ℚ) : DisplacementScheme :=
  match method with
  | .independent => mkIndependentDisplacements evals evecs masses muIndex sigmaN
  | .montecarlo => mkMonteCarloDisplacements evals evecs masses

/-- Embeds the algorithmic part of `muon_vibrational_average_write`
(average.py lines 124-186): species relabelling, mass substitution
(`masses[mu_index] = constants.m_mu_amu`, line 176), scheme construction
(lines 180-184) and `recalc_displacements(n=grid_n, T=displace_T)`
(line 186).  File parsing, the displaced-cell collection and calculator
setup are I/O and stay outside the model. -/
def muon_vibrational_average_write (species : List String) (masses : List ℚ)
    (evals : List ℚ) (evecs : List (List (List ℚ))) (method : DisplMethod)
    (muIndex : ℤ) (muSymbol : String) (gridN : ℕ) (sigmaN : ℚ)
    (displaceT : ℚ) : Except WriteError DisplacementScheme := do
  let r ← speciesRelabel species muSymbol muIndex
  let masses2 := masses.set r.2 m_mu_amu
  let displsch := schemeFor method evals evecs masses2 r.2 sigmaN
  return recalcDisplacements displsch gridN displaceT

/-- The references message printed by dftb_pars.py on import (the module's
`_references_msg`; the citation list is reproduced abridged, its exact text
being immaterial). -/
def references_msg : String :=
  "This calculation makes use of the DFTB parametrisations found at\n\n    https://www.dftb.org/\n\nAll data is licensed under the Creative Commons Attribution-ShareAlike 4.0\nInternational License. For specific data sets remember to cite the following\npapers, by element:\n\n3-ob-3-1\n    [JCTC2013] [JCTC2014] [JCTC2015-1] [JCTC2015-2]\n\npbc-0-3\n    [SiC] [SiO] [Silicon] [Fluorine] [Iron] [SiSi]"

/-- Embeds `DFTBArgs.list` (dftb_pars.py lines 117-120):
`print(', '.join(parameter_sets.keys()))`.  The Python function returns
`None` (here `Unit`); the second component is the list of lines it
prints. -/
def dftbArgs_list (parameterSetNames : List String) : Unit × List String :=
  ((), [String.intercalate ", " parameterSetNames])

/-- Embeds the import-time effect of dftb_pars.py: line 47 runs
`print_references()` whenever the module is loaded, so importing the module
prints the references message.  The value is the list of lines printed on
import. -/
def dftb_pars_import_output : List String := [references_msg]

/-- The parameter-file fields of `nq_entry` relevant to the temperature
defaulting (quantum/__main__.py lines 36-38); the other schema keys do not
interact with it. -/
structure MuonHarmonicParams where
  average_T : Option ℚ
  displace_T : ℚ
deriving DecidableEq

/-- Embeds quantum/__main__.py lines 36-38:

    if params['average_T'] is None:
        params['average_T'] = params['displace_T']

run by `nq_entry` before dispatching to the write or read routine. -/
def nq_entry_temperature (p : MuonHarmonicParams) : MuonHarmonicParams :=
  match p.average_T with
  | none => { p with average_T := some p.displace_T }
  | some _ => p

/-! ## Theorems -/

/-- Auxiliary: the zip-map-sum of equal-length lists is the indexed sum. -/
theorem zip_smul_sum_eq {M : Type} [AddCommMonoid M] [Module ℚ M] :
    ∀ (w : List ℚ) (v : List M), w.length = v.length →
      ((w.zip v).map (fun p => p.1 • p.2)).sum =
        ∑ i in Finset.range v.length, (w.getD i 0) • (v.getD i 0) := by
  intro w
  induction w with
  | nil =>
    intro v hv
    cases v with
    | nil => simp
    | cons a t => simp at hv
  | cons a w ih =>
    intro v hv
    cases v with
    | nil => simp at hv
    | cons b t =>
      simp only [List.zip_cons_cons, List.map_cons, List.sum_cons]
      rw [ih t (by simpa using hv)]
      rw [show (b :: t).length = t.length + 1 from rfl, Finset.sum_range_succ']
      simp [add_comm]

/-- Helper: whenever at least as many weights as values are supplied, the
read-time reduction succeeds and returns the weighted sum over the first
`vals.length` weight/value pairs (the slice `weights[:N]`). -/
theorem readAverage_of_le {M : Type} [AddCommMonoid M] [Module ℚ M]
    (weights : List ℚ) (vals : List M) (h : vals.length ≤ weights.length) :
    readAverage weights vals = some (weightedSumSpec weights vals) := by
  have htl : (weights.take vals.length).length = vals.length := by
    simp [List.length_take, Nat.min_eq_left h]
  rw [readAverage, if_pos htl, zip_smul_sum_eq _ _ htl, weightedSumSpec]
  congr 1
  apply Finset.sum_congr rfl
  intro i hi
  have hiv : i < vals.length := Finset.mem_range.mp hi
  have hiw : i < weights.length := lt_of_lt_of_le hiv h
  have hit : i < (weights.take vals.length).length := by rw [htl]; exact hiv
  rw [List.getD_eq_getElem _ _ hit, List.getD_eq_getElem _ _ hiw]
  simp [List.getElem_take]

/-- Helper: `readAverage` on index-function inputs of equal length `n`
returns the indexed weighted sum. -/
theorem readAverage_ofFn {M : Type} [AddCommMonoid M] [Module ℚ M]
    (n : ℕ) (w : Fin n → ℚ) (v : Fin n → M) :
    readAverage (List.ofFn w) (List.ofFn v) = some (∑ i : Fin n, w i • v i) := by
  rw [readAverage_of_le _ _ (by simp)]
  congr 1
  unfold weightedSumSpec
  rw [show (List.ofFn v).length = n from by simp]
  rw [← Fin.sum_univ_eq_sum_range
    (fun i => (List.ofFn w).getD i 0 • (List.ofFn v).getD i 0)]
  apply Finset.sum_congr rfl
  intro i _
  rw [List.getD_eq_getElem _ _ (by simp), List.getD_eq_getElem _ _ (by simp)]
  simp

/-- C1: for every sequence of per-configuration property values and matching
weight sequence of the same length N>0 with weights summing to 1 within
tolerance, the average computed at read time
(`muon_vibrational_average_read`, `avg = np.sum(weights*to_avg, axis=0)`)
equals the weighted sum `Σ weight_i * value_i` over the configurations. -/
theorem muon_vibrational_average_read_weighted_sum {M : Type}
    [AddCommMonoid M] [Module ℚ M]
    (eps : ℚ) (weights : List ℚ) (vals : List M)
    (hlen : weights.length = vals.length) (hpos : 0 < vals.length)
    (hnorm : |weights.sum - 1| ≤ eps) :
    readAverage weights vals = some (weightedSumSpec weights vals) :=
  readAverage_of_le weights vals (le_of_eq hlen.symm)

/-- Witness for C1: two configurations, weights 1/2 each, values 1 and 3. -/
theorem muon_vibrational_average_read_weighted_sum_witness :
    readAverage [(1:ℚ)/2, 1/2] [(1:ℚ), 3] =
      some (weightedSumSpec [(1:ℚ)/2, 1/2] [(1:ℚ), 3]) :=
  muon_vibrational_average_read_weighted_sum 0 [(1:ℚ)/2, 1/2] [(1:ℚ), 3]
    (by decide) (by decide) (by norm_num)

/-- C5: applying the same permutation to values and weights leaves the
read-time weighted average unchanged (order-independence of the
reduction). -/
theorem readAverage_perm_invariant {M : Type} [AddCommMonoid M] [Module ℚ M]
    (n : ℕ) (w : Fin n → ℚ) (v : Fin n → M) (σ : Equiv.Perm (Fin n)) :
    readAverage (List.ofFn (w ∘ σ)) (List.ofFn (v ∘ σ)) =
      readAverage (List.ofFn w) (List.ofFn v) := by
  rw [readAverage_ofFn, readAverage_ofFn]
  exact congrArg some (Equiv.sum_comp σ (fun i => w i • v i))

/-- C3 counterexample: the claim says that when the property evaluator
produced values for fewer configurations than the scheme generated, the
read step raises `IncompleteResultsError` and never averages over the
partial value set.  On a Monte Carlo scheme with 4 generated configurations
but only 2 values present, the read path raises nothing and returns the
weighted average 15/2 of the partial set (weights silently truncated). -/
theorem readPath_incomplete_cex :
    (readPath { mkMonteCarloDisplacements [] [] [1] with
        displacements := [[], [], [], []] } [(10:ℚ), 20] 0).2 =
      some (15/2) := by
  norm_num [readPath, recalcWeights, mkMonteCarloDisplacements, readAverage,
    List.replicate]

/-- C3 (amended): when values are present for fewer configurations than the
scheme generated, the read step does not fail: it truncates the recalculated
weight vector to the number of values present and returns the weighted
average over the partial value set (no `IncompleteResultsError` exists in
the code). -/
theorem readPath_incomplete_averages {M : Type} [AddCommMonoid M]
    [Module ℚ M] (s : DisplacementScheme) (vals : List M) (T : ℚ)
    (h : vals.length ≤ (recalcWeights s T).weights.length) :
    (readPath s vals T).2 =
      some (weightedSumSpec (recalcWeights s T).weights vals) :=
  readAverage_of_le _ _ h

/-- Witness for the amended C3: 4 generated configurations, 2 values. -/
theorem readPath_incomplete_averages_witness :
    (readPath { mkMonteCarloDisplacements [] [] [1] with
        displacements := [[], [], [], []] } [(10:ℚ), 20] 0).2 =
      some (weightedSumSpec
        (recalcWeights { mkMonteCarloDisplacements [] [] [1] with
          displacements := [[], [], [], []] } 0).weights [(10:ℚ), 20]) :=
  readPath_incomplete_averages _ [(10:ℚ), 20] 0
    (by simp [recalcWeights, mkMonteCarloDisplacements])

/-- Helper: the gamma search returns `none` when no entry passes the
zero-wavevector test. -/
theorem findGammaIdx_eq_none :
    ∀ (l : List (ℚ × ℚ × ℚ)), (∀ q ∈ l, isGamma q = false) →
      ∀ k, findGammaIdx l k = none := by
  intro l
  induction l with
  | nil => intro _ k; rfl
  | cons q rest ih =>
    intro h k
    have hq : isGamma q = false := h q (List.mem_cons_self q rest)
    simp only [findGammaIdx, hq, Bool.false_eq_true, if_false]
    exact ih (fun p hp => h p (List.mem_cons_of_mem q hp)) (k + 1)

/-- Helper: the gamma search finds the first entry passing the
zero-wavevector test. -/
theorem findGammaIdx_eq_some :
    ∀ (l : List (ℚ × ℚ × ℚ)) (i : ℕ), i < l.length →
      isGamma (l.getD i (0, 0, 0)) = true →
      (∀ j, j < i → isGamma (l.getD j (0, 0, 0)) = false) →
      ∀ k, findGammaIdx l k = some (k + i) := by
  intro l
  induction l with
  | nil => intro i hi; simp at hi
  | cons q rest ih =>
    intro i hi hg hfirst k
    cases i with
    | zero =>
      simp only [List.getD] at hg
      simp only [findGammaIdx]
      simp at hg
      simp [hg]
    | succ i' =>
      have hq : isGamma q = false := by
        have := hfirst 0 (Nat.succ_pos i')
        simpa [List.getD] using this
      simp only [findGammaIdx, hq, Bool.false_eq_true, if_false]
      have hrec := ih i' (by simpa using hi)
        (by simpa [List.getD] using hg)
        (fun j hj => by simpa [List.getD] using hfirst (j + 1) (by omega))
        (k + 1)
      rw [hrec]
      congr 1
      omega

/-- C4: requesting the gamma-point phonons fails with the missing-gamma
error (the code's `MuonAverageError` with the "Could not find gamma point
phonons" message) exactly when no qpoint passes the zero-wavevector test
`np.isclose(q, [0,0,0]).all()`; when some qpoint passes it, the eigenvalues
and eigenvectors of the first such entry are returned. -/
theorem read_castep_gamma_phonons_gamma (qpts : List (ℚ × ℚ × ℚ))
    (evals : List (List ℚ)) (evecs : List (List (List (List ℚ)))) :
    ((∀ q ∈ qpts, isGamma q = false) →
      read_castep_gamma_phonons qpts evals evecs =
        .error .missingGammaPoint) ∧
    (∀ i, i < qpts.length → isGamma (qpts.getD i (0, 0, 0)) = true →
      (∀ j, j < i → isGamma (qpts.getD j (0, 0, 0)) = false) →
      read_castep_gamma_phonons qpts evals evecs =
        .ok (evals.getD i [], evecs.getD i [])) := by
  constructor
  · intro h
    unfold read_castep_gamma_phonons
    rw [findGammaIdx_eq_none qpts h 0]
  · intro i hi hg hfirst
    unfold read_castep_gamma_phonons
    rw [findGammaIdx_eq_some qpts i hi hg hfirst 0]
    simp

/-- Witness for C4: a dataset with no gamma point fails; a dataset whose
second qpoint is the gamma point returns that qpoint's data. -/
theorem read_castep_gamma_phonons_gamma_witness :
    read_castep_gamma_phonons [((1:ℚ), 0, 0)] [[5]] [[[[1, 0, 0]]]] =
      .error .missingGammaPoint ∧
    read_castep_gamma_phonons [((1:ℚ), 0, 0), (0, 0, 0)] [[5], [7]]
        [[[[1, 0, 0]]], [[[0, 1, 0]]]] =
      .ok ([7], [[[0, 1, 0]]]) := by
  constructor
  · refine (read_castep_gamma_phonons_gamma _ _ _).1 ?_
    intro q hq
    simp only [List.mem_singleton] at hq
    subst hq
    simp only [isGamma, qtol]
    norm_num
  · refine (read_castep_gamma_phonons_gamma _ _ _).2 1 (by norm_num) ?_ ?_
    · simp only [List.getD, isGamma, qtol]
      norm_num
    · intro j hj
      have hj0 : j = 0 := by omega
      subst hj0
      simp only [List.getD, isGamma, qtol]
      norm_num

/-- Helper: every index returned by `np.where(species == mu_symbol)[0]` is
in range. -/
theorem muIndicesOf_lt (species : List String) (sym : String) (i : ℕ)
    (h : i ∈ muIndicesOf species sym) : i < species.length := by
  unfold muIndicesOf at h
  exact List.mem_range.mp (List.mem_filter.mp h).1

/-- Helper: a successful Python index is in range. -/
theorem pyListIndex_lt (n : ℕ) (i : ℤ) (j : ℕ)
    (h : pyListIndex n i = some j) : j < n := by
  unfold pyListIndex at h
  split at h
  · next hc => injection h with h2; omega
  · split at h
    · next hc2 => injection h with h2; omega
    · cases h

/-- Helper: the effective muon index produced by the species relabelling is
in range. -/
theorem speciesRelabel_lt (species : List String) (muSymbol : String)
    (muIndex : ℤ) (sp2 : List String) (i : ℕ)
    (h : speciesRelabel species muSymbol muIndex = .ok (sp2, i)) :
    i < species.length := by
  unfold speciesRelabel at h
  by_cases hc : 1 < (muIndicesOf species muSymbol).length
  · rw [if_pos hc] at h
    exact absurd h (by simp)
  · rw [if_neg hc] at h
    cases hl : muIndicesOf species muSymbol with
    | nil =>
      rw [hl] at h
      cases hp : pyListIndex species.length muIndex with
      | none =>
        rw [hp] at h
        exact absurd h (by simp)
      | some j =>
        rw [hp] at h
        simp only [Except.ok.injEq, Prod.mk.injEq] at h
        have := pyListIndex_lt species.length muIndex j hp
        omega
    | cons i0 tl =>
      cases tl with
      | nil =>
        rw [hl] at h
        simp only [Except.ok.injEq, Prod.mk.injEq] at h
        have hmem : i0 ∈ muIndicesOf species muSymbol := by
          rw [hl]; exact List.mem_singleton.mpr rfl
        have := muIndicesOf_lt species muSymbol i0 hmem
        omega
      | cons i1 tl2 =>
        exfalso
        apply hc
        rw [hl]
        simp [List.length_cons]

/-- C6: whenever the write path succeeds, the scheme it built received the
mass array with the muon entry already substituted — the result is exactly
`recalc_displacements` applied to the scheme constructed from
`masses.set mui m_mu_amu` (substitution strictly before construction, which
is strictly before displacement generation), and the stored mass at the
effective muon index is the muon mass — for either scheme variant. -/
theorem write_mass_substitution (species : List String) (masses : List ℚ)
    (evals : List ℚ) (evecs : List (List (List ℚ))) (method : DisplMethod)
    (muIndex : ℤ) (muSymbol : String) (gridN : ℕ) (sigmaN : ℚ)
    (displaceT : ℚ) (sp2 : List String) (mui : ℕ)
    (hrel : speciesRelabel species muSymbol muIndex = .ok (sp2, mui))
    (hlen : masses.length = species.length) :
    muon_vibrational_average_write species masses evals evecs method muIndex
        muSymbol gridN sigmaN displaceT =
      .ok (recalcDisplacements
        (schemeFor method evals evecs (masses.set mui m_mu_amu) mui sigmaN)
        gridN displaceT) ∧
    (recalcDisplacements
        (schemeFor method evals evecs (masses.set mui m_mu_amu) mui sigmaN)
        gridN displaceT).masses.getD mui 0 = m_mu_amu := by
  have hmui : mui < masses.length := by
    rw [hlen]
    exact speciesRelabel_lt species muSymbol muIndex sp2 mui hrel
  constructor
  · unfold muon_vibrational_average_write
    rw [hrel]
    rfl
  · have hmass : (recalcDisplacements
        (schemeFor method evals evecs (masses.set mui m_mu_amu) mui sigmaN)
        gridN displaceT).masses = masses.set mui m_mu_amu := by
      cases method <;>
        simp [recalcDisplacements, schemeFor, mkIndependentDisplacements,
          mkMonteCarloDisplacements]
    rw [hmass, List.getD_eq_getElem _ _ (by simp [hmui])]
    simp [List.getElem_set_self]

/-- Witness for C6: a two-atom cell with no muon-labelled atom, muon index
0, no phonon modes. -/
theorem write_mass_substitution_witness :
    muon_vibrational_average_write ["H", "Cu"] [1, 63] [] [] .independent 0
        "mu" 3 3 0 =
      .ok (recalcDisplacements
        (schemeFor .independent [] [] ([(1:ℚ), 63].set 0 m_mu_amu) 0 3) 3 0) ∧
    (recalcDisplacements
        (schemeFor .independent [] [] ([(1:ℚ), 63].set 0 m_mu_amu) 0 3)
        3 0).masses.getD 0 0 = m_mu_amu :=
  write_mass_substitution ["H", "Cu"] [1, 63] [] [] .independent 0 "mu" 3 3 0
    ["mu", "Cu"] 0 (by rfl) (by decide)

/-- C7: `recalc_weights(T)` — as called by the read path, at a temperature
possibly different from the generation temperature — repopulates only the
`weights` field (Gaussian densities recomputed at the stored grid positions
for the independent scheme, uniform weights for Monte Carlo); the
displacements, stored grid and all constructional data are untouched, and in
particular the displacements generated at write time at temperature T0
survive a read-time weight recalculation at any temperature T: the read
path never regenerates geometry. -/
theorem recalc_weights_only_weights (s : DisplacementScheme) (n : ℕ)
    (T0 T : ℚ) (vals : List ℚ) :
    (recalcWeights s T).displacements = s.displacements ∧
    (recalcWeights s T).gridPoints = s.gridPoints ∧
    (recalcWeights s T).method = s.method ∧
    (recalcWeights s T).evals = s.evals ∧
    (recalcWeights s T).evecs = s.evecs ∧
    (recalcWeights s T).masses = s.masses ∧
    (recalcWeights s T).muIndex = s.muIndex ∧
    (recalcWeights s T).sigmaN = s.sigmaN ∧
    (recalcWeights s T).weights =
      (match s.method with
       | .independent => independentWeights s T
       | .montecarlo =>
          List.replicate s.displacements.length
            (1 / (s.displacements.length : ℚ))) ∧
    (readPath s vals T).1.displacements = s.displacements ∧
    (recalcWeights (recalcDisplacements s n T0) T).displacements =
      (recalcDisplacements s n T0).displacements :=
  ⟨rfl, rfl, rfl, rfl, rfl, rfl, rfl, rfl, rfl, rfl, rfl⟩

/-- C8 counterexample: the claim says listing the parameter sets is a pure
query returning the names without printing, and that importing the module
prints nothing.  In the code `DFTBArgs.list` prints the joined names
(returning None) and line 47 of dftb_pars.py prints the references message
at import: both emitted outputs are nonempty. -/
theorem dftbArgs_list_prints_cex :
    (dftbArgs_list ["3ob-3-1", "pbc-0-3"]).2 ≠ [] ∧
    dftb_pars_import_output ≠ [] := by
  constructor <;> simp [dftbArgs_list, dftb_pars_import_output]

/-- C8 (amended): `DFTBArgs.list` prints the comma-joined parameter set
names and returns the Python None, and importing dftb_pars prints the
references message (`print_references()` runs at module load). -/
theorem dftbArgs_list_amended (names : List String) :
    dftbArgs_list names = ((), [String.intercalate ", " names]) ∧
    dftb_pars_import_output = [references_msg] :=
  ⟨rfl, rfl⟩

/-- C9: when the parameter file leaves `average_T` unspecified (None),
`nq_entry` substitutes `displace_T` for it before dispatching, so averaging
defaults to the displacement-generation temperature. -/
theorem nq_entry_default_average_T (p : MuonHarmonicParams)
    (h : p.average_T = none) :
    (nq_entry_temperature p).average_T = some p.displace_T ∧
    (nq_entry_temperature p).displace_T = p.displace_T := by
  unfold nq_entry_temperature
  rw [h]
  exact ⟨rfl, rfl⟩

/-- Witness for C9: a parameter set with `average_T = None` and
`displace_T = 300`. -/
theorem nq_entry_default_average_T_witness :
    (nq_entry_temperature ⟨none, 300⟩).average_T = some (300:ℚ) ∧
    (nq_entry_temperature ⟨none, 300⟩).displace_T = (300:ℚ) :=
  nq_entry_default_average_T ⟨none, 300⟩ rfl

/-- C10: if more than one atom carries the muon symbol the write path fails
with `MuonAverageError` (no scheme is ever constructed: the error
short-circuits the whole pipeline); if exactly one atom carries it, the
passed `mu_index` is ignored in favour of that atom's index (the result is
the same for any two passed indices, and the species array is unchanged);
if none does, the atom at the passed (Python, possibly negative) index is
relabelled with the muon symbol. -/
theorem write_muon_detection (species : List String) (muSymbol : String) :
    (∀ (masses : List ℚ) (evals : List ℚ) (evecs : List (List (List ℚ)))
        (method : DisplMethod) (muIndex : ℤ) (gridN : ℕ) (sigmaN : ℚ)
        (displaceT : ℚ),
      1 < (muIndicesOf species muSymbol).length →
      muon_vibrational_average_write species masses evals evecs method
        muIndex muSymbol gridN sigmaN displaceT = .error .muonAverage) ∧
    (∀ i : ℕ, muIndicesOf species muSymbol = [i] →
      ∀ muIndex muIndex' : ℤ,
        speciesRelabel species muSymbol muIndex = .ok (species, i) ∧
        speciesRelabel species muSymbol muIndex =
          speciesRelabel species muSymbol muIndex') ∧
    (muIndicesOf species muSymbol = [] →
      ∀ (muIndex : ℤ) (j : ℕ), pyListIndex species.length muIndex = some j →
        speciesRelabel species muSymbol muIndex =
          .ok (species.set j muSymbol, j)) := by
  refine ⟨?_, ?_, ?_⟩
  · intro masses evals evecs method muIndex gridN sigmaN displaceT h
    have hrel : speciesRelabel species muSymbol muIndex =
        .error .muonAverage := by
      unfold speciesRelabel
      rw [if_pos h]
    unfold muon_vibrational_average_write
    rw [hrel]
    rfl
  · intro i hidx muIndex muIndex'
    have h1 : ∀ mi : ℤ, speciesRelabel species muSymbol mi =
        .ok (species, i) := by
      intro mi
      unfold speciesRelabel
      rw [hidx]
      rfl
    exact ⟨h1 muIndex, (h1 muIndex).trans (h1 muIndex').symm⟩
  · intro hidx muIndex j hj
    unfold speciesRelabel
    rw [hidx]
    simp only [List.length_nil]
    rw [if_neg (by omega)]
    rw [hj]

/-- Witness for C10: the three cases on concrete cells — two muons (error),
exactly one muon at index 1 (passed indices 0 and -1 both ignored), and no
muon with passed index -1 (relabels the last atom). -/
theorem write_muon_detection_witness :
    muon_vibrational_average_write ["mu", "mu"] [] [] [] .independent 0 "mu"
        1 3 0 = .error .muonAverage ∧
    (speciesRelabel ["H", "mu", "O"] "mu" 0 = .ok (["H", "mu", "O"], 1) ∧
      speciesRelabel ["H", "mu", "O"] "mu" 0 =
        speciesRelabel ["H", "mu", "O"] "mu" (-1)) ∧
    speciesRelabel ["H", "O"] "mu" (-1) = .ok (["H", "mu"], 1) := by
  refine ⟨?_, ?_, ?_⟩
  · exact (write_muon_detection ["mu", "mu"] "mu").1 [] [] [] .independent 0
      1 3 0 (by decide)
  · exact (write_muon_detection ["H", "mu", "O"] "mu").2.1 1 (by decide) 0
      (-1)
  · exact (write_muon_detection ["H", "O"] "mu").2.2 (by decide) (-1) 1
      (by decide)

end PyMuonSuite
